import Mathlib

/-!
Shallow embedding of the `iris-ued-plugins` raw-dataset adapters
(`mcgill_alpha.py`, `mcgill_beta.py`, `mcgill_gamma.py`, `mcgill_delta.py`)
and proofs about the claims of the specification.

Modelling conventions:
* Python exceptions are modelled by the `PyError` type together with
  `Except PyError` results.
* Python floats are modelled by `ℚ`; detector images by `List ℚ`
  (a flattened 2-D array; only pointwise operations occur in the code).
* Time-delays are modelled as scaled integers: an integer `t` stands for the
  float `t / 10^p` where `p` is the decimal precision of the format string of
  the adapter at hand (2 for Alpha, 3 for Beta/Gamma/Delta).  On this domain
  Python fixed-point float formatting is exact, so no rounding is modelled.
* Python dictionaries are association lists with unique keys, built by
  `insertOrReplace` (insertion order kept, later bindings overwrite).
* The filesystem is an abstract record `FS` of pure query functions.
-/

/-- Python exception kinds raised by the code under study. -/
inductive PyError : Type where
  | valueError
  | ioError
  | keyError
  | indexError
  | attributeError
  | nameError
  | syntaxError
  deriving DecidableEq, Repr

/-! ## Character / string utilities (kernel-computable replacements for the
Python string operations used by the adapters). -/

/-- All characters of a string, with every whitespace character removed.
Models `re.sub(r"\s+", "", line)` from `mcgill_alpha.py`. -/
def removeWS (s : String) : String :=
  ⟨s.data.filter (fun c => !c.isWhitespace)⟩

/-- Lower-case every character.  Models Python `str.lower` on the ASCII keys
appearing in tag files. -/
def lowerStr (s : String) : String :=
  ⟨s.data.map Char.toLower⟩

/-- Split a character list at every occurrence of the separator character.
Models Python `str.split(sep)` for a one-character separator. -/
def splitOnChar (c : Char) : List Char → List (List Char)
  | [] => [[]]
  | x :: xs =>
    match splitOnChar c xs with
    | [] => if x = c then [[], []] else [[x]]
    | h :: t => if x = c then [] :: h :: t else (x :: h) :: t

/-- Strip the character `c` from both ends of a string.
Models Python `str.strip(c)` for a one-character strip set. -/
def stripCharBoth (c : Char) (s : String) : String :=
  ⟨(((s.data.dropWhile (· = c)).reverse.dropWhile (· = c)).reverse)⟩

/-- Strip whitespace from both ends of a string.  Models Python `str.strip()`. -/
def stripWSBoth (s : String) : String :=
  ⟨(((s.data.dropWhile Char.isWhitespace).reverse.dropWhile Char.isWhitespace).reverse)⟩

/-- Model of `leadSeq a b` holds when the character list `a` appears at the very start
of `b`. -/
def leadSeq : List Char → List Char → Bool
  | [], _ => true
  | _ :: _, [] => false
  | a :: as, b :: bs => a = b && leadSeq as bs

/-- Model of `containsSeq a b` holds when the character list `a` occurs contiguously
somewhere inside `b`.  Models the Python `in` test on strings. -/
def containsSeq (a : List Char) : List Char → Bool
  | [] => leadSeq a []
  | b :: bs => leadSeq a (b :: bs) || containsSeq a bs

/-- Model of `strContains hay needle` models Python `needle in hay`. -/
def strContains (hay needle : String) : Bool :=
  containsSeq needle.data hay.data

/-- Numeric value of a list of decimal digit characters (most significant
first). -/
def digitsVal (l : List Char) : ℕ :=
  l.foldl (fun a c => 10 * a + (c.toNat - 48)) 0

/-! ### Kernel-computable rational arithmetic.

The arithmetic of the core `Rat` type does not reduce during elaboration, so
the embedding builds and combines rationals through `mkRatLite` and the `q*`
operations below, which do.  The bridge lemmas prove that they agree with the
ordinary field operations of `ℚ`, so the embedding's arithmetic is exactly
rational arithmetic. -/

/-- Build the rational `n / d` (for `d ≠ 0`) in lowest terms, by explicit
normalization.  Reduces during elaboration and in the kernel. -/
def mkRatLite (n : ℤ) (d : ℕ) : ℚ :=
  if h : d / Nat.gcd n.natAbs d ≠ 0 ∧
      ((n / (Nat.gcd n.natAbs d : ℤ)).natAbs.Coprime (d / Nat.gcd n.natAbs d)) then
    ⟨n / (Nat.gcd n.natAbs d : ℤ), d / Nat.gcd n.natAbs d, h.1, h.2⟩
  else 0

def qAdd (a b : ℚ) : ℚ := mkRatLite (a.num * b.den + b.num * a.den) (a.den * b.den)

def qSub (a b : ℚ) : ℚ := mkRatLite (a.num * b.den - b.num * a.den) (a.den * b.den)

def qNeg (a : ℚ) : ℚ := mkRatLite (-a.num) a.den

/-- Python `abs` on a float. -/
def qAbs (a : ℚ) : ℚ := mkRatLite a.num.natAbs a.den

/-- Partial model of Python `float(str)`: accepts an optional sign followed by
`digits`, `digits.digits`, `digits.` or `.digits` (the literal forms occurring
in the data files of this repository); everything else raises `ValueError`,
modelled as `none`. -/
def pyFloat? (s : String) : Option ℚ :=
  let core : List Char → Option ℚ := fun l =>
    match splitOnChar '.' l with
    | [a] =>
      if a ≠ [] ∧ a.all Char.isDigit then some (mkRatLite (digitsVal a) 1)
      else none
    | [a, b] =>
      if (a ≠ [] ∨ b ≠ []) ∧ a.all Char.isDigit ∧ b.all Char.isDigit then
        some (mkRatLite ((digitsVal a : ℤ) * (10 : ℤ) ^ b.length + (digitsVal b : ℤ))
          ((10 : ℕ) ^ b.length))
      else none
    | _ => none
  match s.data with
  | '+' :: rest => core rest
  | '-' :: rest => (core rest).map qNeg
  | l => core l

/-- Partial model of Python `int(str)`: optional sign followed by digits. -/
def pyInt? (s : String) : Option ℤ :=
  let core : List Char → Option ℤ := fun l =>
    if l ≠ [] ∧ l.all Char.isDigit then some (digitsVal l : ℤ) else none
  match s.data with
  | '+' :: rest => core rest
  | '-' :: rest => (core rest).map Neg.neg
  | l => core l

/-! ## Python dictionaries as association lists. -/

/-- Insert a binding into an association list, replacing the binding of an
existing key in place.  Models assignment `d[k] = v` on a Python dict. -/
def insertOrReplace {α β : Type} [DecidableEq α] :
    List (α × β) → α × β → List (α × β)
  | [], kv => [kv]
  | (k, v) :: rest, kv =>
    if k = kv.1 then (k, kv.2) :: rest else (k, v) :: insertOrReplace rest kv

/-- Build a dict from a list of bindings, later bindings overwriting earlier
ones.  Models a Python dict comprehension. -/
def buildDict {α β : Type} [DecidableEq α] (l : List (α × β)) : List (α × β) :=
  l.foldl insertOrReplace []

/-- Dictionary lookup (first binding of the key).  Models `d[k]` returning
`none` in place of a `KeyError`. -/
def dictGet {α β : Type} [DecidableEq α] (d : List (α × β)) (k : α) : Option β :=
  (d.find? (fun kv => decide (kv.1 = k))).map (·.2)

/-- Lift an optional value into `Except`, raising `e` on `none`. -/
def liftOpt {α : Type} (o : Option α) (e : PyError) : Except PyError α :=
  match o with
  | some a => .ok a
  | none => .error e

/-! ## Paths.

Paths are plain strings.  `pyJoin` models `os.path.join` / `pathlib`'s `/`
operator for the uses in this repository: joining with a separator, except
that an absolute right operand replaces the left one.  `parentOf` models
`pathlib.Path.parent` (`Path("a/b").parent = Path("a")`, `Path("x").parent =
Path(".")`). -/

def pyJoin (a b : String) : String :=
  if b.data.head? = some '/' then b else a ++ "/" ++ b

def joinWithSlash : List (List Char) → List Char
  | [] => []
  | [p] => p
  | p :: ps => p ++ '/' :: joinWithSlash ps

def parentOf (p : String) : String :=
  match splitOnChar '/' p.data with
  | [] => "."
  | [_] => "."
  | parts => ⟨joinWithSlash parts.dropLast⟩

/-- Model of `os.path.abspath` with the working directory at the filesystem
root: an already-absolute path is returned unchanged, a relative one is
anchored at `/`. -/
def pyAbspath (s : String) : String :=
  if s.data.head? = some '/' then s else "/" ++ s

/-! ## Images. -/

/-- A detector image: flattened 2-D array of floating-point intensities. -/
abbrev Image : Type := List ℚ

/-- Pointwise subtraction of two images, `im -= bg` (via the
kernel-computable `qSub`, which agrees with `·-·` by `qSub_eq`). -/
def imSub (im bg : Image) : Image :=
  List.zipWith qSub im bg

/-- Model of `im[im < 0] = 0`: clamp negative intensities to zero. -/
def imClampNeg (im : Image) : Image :=
  im.map (fun x => if x < 0 then 0 else x)

/-! ## The abstract filesystem.

Each field is one of the pure queries the adapters make:
`isDir`/`fileExists` model `os.path.isdir` / `Path.exists`; `listDir` models
`os.listdir`; `readLines` models opening a text file and iterating over its
lines (`none` when the file is missing); `readRows` models `csv.reader` on an
opened CSV file; `readImage` models `skued.diffread`; `glob` models
`glob.iglob`, returning the matches of a pattern in order. -/
structure FS : Type where
  isDir : String → Bool
  fileExists : String → Bool
  listDir : String → List String
  readLines : String → Option (List String)
  readRows : String → Option (List (List String))
  readImage : String → Option Image
  glob : String → List String

/-! ## `McGillRawDatasetAlpha.parse_tagfile` (`mcgill_alpha.py`, lines 82-98).

For each line: all whitespace is removed (`re.sub(r"\s+", "", line)`), the
result is split on `"="` and unpacked into `key, value` (any other number of
parts raises `ValueError`); the value is parsed with
`float(value.strip("s"))`, a failure storing `None`; the binding
`metadata[key.lower()] = value` is added. -/

def parseTagLine (line : String) : Except PyError (String × Option ℚ) :=
  match splitOnChar '=' (removeWS line).data with
  | [k, v] => .ok (lowerStr ⟨k⟩, pyFloat? (stripCharBoth 's' ⟨v⟩))
  | _ => .error .valueError

def tagLinesGo : List String → List (String × Option ℚ) →
    Except PyError (List (String × Option ℚ))
  | [], d => .ok d
  | l :: ls, d =>
    match parseTagLine l with
    | .error e => .error e
    | .ok kv => tagLinesGo ls (insertOrReplace d kv)

def parse_tagfile (lines : List String) :
    Except PyError (List (String × Option ℚ)) :=
  tagLinesGo lines []

instance {ε α : Type} [DecidableEq ε] [DecidableEq α] :
    DecidableEq (Except ε α) := fun x y =>
  match x, y with
  | .error e, .error f =>
    match decEq e f with
    | isTrue h => isTrue (h ▸ rfl)
    | isFalse h => isFalse (fun hh => h (Except.error.inj hh))
  | .error _, .ok _ => isFalse (fun hh => Except.noConfusion hh)
  | .ok _, .error _ => isFalse (fun hh => Except.noConfusion hh)
  | .ok a, .ok b =>
    match decEq a b with
    | isTrue h => isTrue (h ▸ rfl)
    | isFalse h => isFalse (fun hh => h (Except.ok.inj hh))

/-! ### Claim C2: the spec-side description of tag-file parsing.

The claim reads each line as `key = value` with the key "whitespace-stripped"
(ends only) and the value parsed "after stripping a trailing 's'".  The code
(`re.sub(r"\s+", "", line)` then `value.strip("s")`) removes interior
whitespace as well and strips `'s'` from both ends; the `amended*`
definitions state the corrected behaviour. -/

/-- Strip the character `c` from the end of a string only (the claim's
"stripping a trailing 's'"). -/
def stripTrailingChar (c : Char) (s : String) : String :=
  ⟨(s.data.reverse.dropWhile (· = c)).reverse⟩

/-- Amended claim, key part: the key of a line is everything before the first
`=` after removing all whitespace (interior included), lower-cased. -/
def amendedKey (line : String) : String :=
  lowerStr ⟨(removeWS line).data.takeWhile (· != '=')⟩

/-- Amended claim, value part: the value of a line is everything after the
first `=` once all whitespace is removed; it is stored as the parsed float
after stripping `'s'` from both ends, or as the sentinel `none` when it does
not parse. -/
def amendedVal (line : String) : Option ℚ :=
  pyFloat? (stripCharBoth 's' ⟨((removeWS line).data.dropWhile (· != '=')).drop 1⟩)

def amendedLine (line : String) : String × Option ℚ :=
  (amendedKey line, amendedVal line)

/-- Left-pad a string with `'0'` to width `w`.  Models Python `str.zfill` on
unsigned digit strings, and the zero-padding of the `0`-flagged format
specifiers. -/
def padLeftZeros (w : ℕ) (s : String) : String :=
  if w ≤ s.length then s else ⟨List.replicate (w - s.length) '0'⟩ ++ s

/-- Decimal rendering of a non-negative scaled value `n` (standing for
`n / 10^prec`) with exactly `prec` digits after the point. -/
def fmtFixedNat (prec : ℕ) (n : ℕ) : String :=
  Nat.repr (n / 10 ^ prec) ++ "." ++ padLeftZeros prec (Nat.repr (n % 10 ^ prec))

/-- Python `f"{x:.2f}"` on the exact centi-value `t / 100`: minus sign for
negative values, no sign otherwise. -/
def pyFmtDot2 (t : ℤ) : String :=
  (if t < 0 then "-" else "") ++ fmtFixedNat 2 t.natAbs

/-- Python `f"{x:+010.3f}"` on the exact milli-value `t / 1000`: explicit
sign, zero-padded between the sign and the digits to a total width of 10,
three digits after the point. -/
def pyFmtPlus010Dot3 (t : ℤ) : String :=
  (if t < 0 then "-" else "+") ++ padLeftZeros 9 (fmtFixedNat 3 t.natAbs)

/-- Python `f"{s:04d}"` for a non-negative scan number. -/
def pyFmt04d (s : ℕ) : String := padLeftZeros 4 (Nat.repr s)

/-- Model of `McGillRawDatasetAlpha.raw_data`, lines 130-140 of `mcgill_alpha.py`:
`sign = "" if timedelay < 0 else "+"`, `str_time = sign + f"{timedelay:.2f}"`,
`filename = "data.timedelay." + str_time + ".nscan." + str(scan).zfill(2) +
".pumpon.tif"`.  `t` is the time-delay in hundredths. -/
def alpha_raw_fname (t : ℤ) (s : ℕ) : String :=
  (if t < 0 then "" else "+") ++ pyFmtDot2 t |>
    (fun strTime => "data.timedelay." ++ strTime ++ ".nscan." ++
      padLeftZeros 2 (Nat.repr s) ++ ".pumpon.tif")

/-- Model of `McGillRawDatasetGamma.raw_data` / `electron_count` filename relative to
the source directory: `f"scan_{scan:04d}" / f"pumpon_{timedelay:+010.3f}ps.tif"`
(`mcgill_gamma.py`, lines 148-150 and 184-186).  `t` is the time-delay in
thousandths. -/
def gamma_rel_fname (t : ℤ) (s : ℕ) : String :=
  pyJoin ("scan_" ++ pyFmt04d s) ("pumpon_" ++ pyFmtPlus010Dot3 t ++ "ps.tif")

/-- Model of `McGillRawDatasetBeta.raw_data`, line 94: `join(self.source,
f"scan {scan:04d}")` (note the space instead of the underscore). -/
def beta_scan_dir (source : String) (s : ℕ) : String :=
  pyJoin source ("scan " ++ pyFmt04d s)

/-- Model of `McGillRawDatasetBeta.raw_data`, line 96: the glob pattern
`join(directory, f"pumpon_{timedelay:+010.3f}ps_*.tif")`. -/
def beta_glob_pattern (source : String) (t : ℤ) (s : ℕ) : String :=
  pyJoin (beta_scan_dir source s) ("pumpon_" ++ pyFmtPlus010Dot3 t ++ "ps_*.tif")

/-- Model of `McGillRawDatasetDelta.raw_data`, line 192: `os.path.join(
os.path.abspath(self.source), f"scan_{scan:04d}",
f"pumpon_{timedelay:+010.3f}ps.tif")`. -/
def delta_fname (source : String) (t : ℤ) (s : ℕ) : String :=
  pyJoin (pyJoin (pyAbspath source) ("scan_" ++ pyFmt04d s))
    ("pumpon_" ++ pyFmtPlus010Dot3 t ++ "ps.tif")

/-- The claim's description of a signed fixed-precision decimal: an explicit
sign character followed by the digits. -/
def specSignPrefix (t : ℤ) : String := if t < 0 then "-" else "+"

/-! ## Regular-expression models for `McGillRawDatasetAlpha.__init__`
(`mcgill_alpha.py`, lines 56-80). -/

/-- Model of `s.endswith(suffix)`. -/
def strEndsWith (s suffix : String) : Bool :=
  leadSeq suffix.data.reverse s.data.reverse

/-- Match of `re.search("[+-]\d+[.]\d+", ·)` anchored at the head of the
list: a sign, one or more digits (greedy), a dot, one or more digits
(greedy). -/
def matchSignedAt : List Char → Option (List Char)
  | [] => none
  | c :: rest =>
    if c = '+' ∨ c = '-' then
      let d1 := rest.takeWhile Char.isDigit
      if d1.isEmpty then none
      else
        match rest.drop d1.length with
        | '.' :: rest2 =>
          let d2 := rest2.takeWhile Char.isDigit
          if d2.isEmpty then none
          else some (c :: (d1 ++ '.' :: d2))
        | _ => none
    else none

def searchSignedGo : List Char → Option (List Char)
  | [] => none
  | c :: rest =>
    match matchSignedAt (c :: rest) with
    | some m => some m
    | none => searchSignedGo rest

/-- Model of `re.search("[+-]\d+[.]\d+", f).group()`: the leftmost signed decimal
substring of `f`, or `none` (Python: `AttributeError` on `.group()`). -/
def searchSignedDec (f : String) : Option String :=
  (searchSignedGo f.data).map (fun l => (⟨l⟩ : String))

/-- Match of `re.search("[n][s][c][a][n][.](\d+)", ·)` anchored at the head,
already combined with the subsequent `.group().strip("nscan.")` and `int(·)`
of the source: `"nscan."` followed by one or more digits; `strip("nscan.")`
removes exactly the leading `"nscan."` from the match (the match ends in a
digit, which is not in the strip set), and `int` of the digits is their
value. -/
def matchNscanAt (l : List Char) : Option ℕ :=
  if leadSeq ['n', 's', 'c', 'a', 'n', '.'] l then
    if ((l.drop 6).takeWhile Char.isDigit).isEmpty then none
    else some (digitsVal ((l.drop 6).takeWhile Char.isDigit))
  else none

def searchNscanGo : List Char → Option ℕ
  | [] => none
  | c :: rest =>
    match matchNscanAt (c :: rest) with
    | some n => some n
    | none => searchNscanGo rest

def searchNscanNum (f : String) : Option ℕ := searchNscanGo f.data

/-- Model of `float(·)` on the strings matched by the time-delay pattern (which always
parse); the sort key of `time_list.sort(key=float)`. -/
def keyRat (s : String) : ℚ := (pyFloat? s).getD 0

def timeKeyLe (a b : String) : Prop := keyRat a ≤ keyRat b

instance : DecidableRel timeKeyLe := fun a b =>
  inferInstanceAs (Decidable (keyRat a ≤ keyRat b))

instance : IsTotal String timeKeyLe := ⟨fun a b => le_total (keyRat a) (keyRat b)⟩

instance : IsTrans String timeKeyLe := ⟨fun _ _ _ h1 h2 => le_trans h1 h2⟩

/-- Model of `mcgill_alpha.py`, lines 63-70: the scan numbers, from the files whose
name contains `"nscan"`; a file without a full regex match raises
`AttributeError`; conversion to a set removes duplicates. -/
def alphaScans (files : List String) : Except PyError (List ℕ) := do
  let nums ← liftOpt
    ((files.filter (fun f => strContains f "nscan")).mapM searchNscanNum)
    .attributeError
  pure nums.eraseDups

/-- Model of `mcgill_alpha.py`, lines 72-80: the time-points, from the files whose
name contains `"timedelay"`: the matched signed-decimal strings are
de-duplicated as strings (`set`), sorted by their float value
(`sort(key=float)`), and parsed (`map(float, ·)`). -/
def alphaTimePoints (files : List String) : Except PyError (List ℚ) := do
  let timeStrs ← liftOpt
    ((files.filter (fun f => strContains f "timedelay")).mapM searchSignedDec)
    .attributeError
  pure (((timeStrs.eraseDups).insertionSort timeKeyLe).map keyRat)

/-! ## Model of `configparser` on the single-section `metadata.cfg` files
(`parse_metadata` in `mcgill_beta.py` lines 38-65, `mcgill_gamma.py` lines
96-123 and `mcgill_delta.py` lines 104-131 — three identical copies).

The model covers the subset of INI syntax these files use: one
`[SECTION]` header, `key = value` lines, inline comments introduced by `#`
(`inline_comment_prefixes=("#")`), keys compared case-insensitively, values
stripped of surrounding whitespace. -/

def joinWithChar (c : Char) : List (List Char) → List Char
  | [] => []
  | [p] => p
  | p :: ps => p ++ c :: joinWithChar c ps

/-- Strip an inline `#` comment, then surrounding whitespace, from an INI
value. -/
def iniStripValue (v : String) : String :=
  stripWSBoth ⟨v.data.takeWhile (· != '#')⟩

def isSectionHeader (l : String) : Bool :=
  match (stripWSBoth l).data with
  | '[' :: _ => true
  | _ => false

def iniGetGo (sect key : String) : List String → Bool → Option String
  | [], _ => none
  | l :: ls, inSec =>
    let t := stripWSBoth l
    if t = "[" ++ sect ++ "]" then iniGetGo sect key ls true
    else if isSectionHeader t then iniGetGo sect key ls false
    else if inSec then
      match splitOnChar '=' t.data with
      | [_] => iniGetGo sect key ls true
      | [] => iniGetGo sect key ls true
      | k :: rest =>
        if lowerStr (stripWSBoth ⟨k⟩) = lowerStr key then
          some (iniStripValue ⟨joinWithChar '=' rest⟩)
        else iniGetGo sect key ls true
    else iniGetGo sect key ls false

/-- Model of `parser[sect][key]`: the value of `key` under section `sect`. -/
def iniGet (lines : List String) (sect key : String) : Option String :=
  iniGetGo sect key lines false

def hasSection (lines : List String) (sect : String) : Bool :=
  lines.any (fun l => stripWSBoth l = "[" ++ sect ++ "]")

/-- Model of the `eval(exp_params["time points"])` call on the values those
files actually hold: a bracketed, comma-separated list of signed decimal
number literals.  Any other text makes `eval` raise, modelled as `none`. -/
def evalListLit (s : String) : Option (List ℚ) :=
  let t := (stripWSBoth s).data
  match t with
  | '[' :: rest =>
    match rest.reverse with
    | ']' :: mid =>
      let inner := mid.reverse
      if (stripWSBoth ⟨inner⟩).data.isEmpty then some []
      else (splitOnChar ',' inner).mapM
        (fun piece => pyFloat? (stripWSBoth ⟨piece⟩))
    | _ => none
  | _ => none

/-- The metadata schema shared by the Beta/Gamma/Delta adapters
(translation table of `parse_metadata`). -/
structure IrisMeta : Type where
  energy : String
  acquisitionDate : String
  fluence : String
  temperature : String
  exposure : String
  notes : String
  pumpWavelength : String
  scans : List ℕ
  timePoints : List ℚ
  deriving DecidableEq, Repr

/-- Model of `parse_metadata`: a missing section or key raises `KeyError`
(`parser["EXPERIMENTAL PARAMETERS"]`, `exp_params[...]`), a non-integer
`nscans` raises `ValueError` (`int(...)`), a non-list `time points` value
makes `eval` raise; `scans = list(range(1, nscans + 1))`. -/
def parse_metadata (lines : List String) : Except PyError IrisMeta :=
  if hasSection lines "EXPERIMENTAL PARAMETERS" = false then
    .error .keyError
  else do
  let get : String → Except PyError String := fun k =>
    liftOpt (iniGet lines "EXPERIMENTAL PARAMETERS" k) .keyError
  let en ← get "electron energy"
  let ad ← get "acquisition date"
  let fl ← get "fluence"
  let te ← get "temperature"
  let ex ← get "exposure"
  let no ← get "notes"
  let pw ← get "pump wavelength"
  let ns ← get "nscans"
  let tp ← get "time points"
  let n ← liftOpt (pyInt? ns) .valueError
  let tps ← liftOpt (evalListLit tp) .syntaxError
  pure ⟨en, ad, fl, te, ex, no, pw, (List.range n.toNat).map (· + 1), tps⟩

/-! ## CSV key-value stores (`csv_to_kvstore`, `mcgill_gamma.py` lines 16-22
and `mcgill_delta.py` lines 14-25). -/

/-- One row of the CSV: the key is `keyFn row[0]`, the value `float(row[1])`;
a short row raises `IndexError`, an unparseable value `ValueError`. -/
def csvRowsGo (keyFn : String → String) :
    List (List String) → List (String × ℚ) → Except PyError (List (String × ℚ))
  | [], d => .ok d
  | row :: rest, d =>
    match row with
    | r0 :: r1 :: _ =>
      match pyFloat? r1 with
      | some q => csvRowsGo keyFn rest (insertOrReplace d (keyFn r0, q))
      | none => .error .valueError
    | _ => .error .indexError

/-- Gamma's `csv_to_kvstore`: keys are `Path(row[0])` (kept as the relative
path string); one header row is skipped. -/
def csv_to_kvstore_gamma (rows : List (List String)) :
    Except PyError (List (String × ℚ)) :=
  csvRowsGo id (rows.drop 1) []

/-- Delta's `csv_to_kvstore`: keys are `os.path.join(sname, row[0])` with the
separator normalized to `/` (the model's only separator); one header row is
skipped. -/
def csv_to_kvstore_delta (sname : String) (rows : List (List String)) :
    Except PyError (List (String × ℚ)) :=
  csvRowsGo (fun r0 => pyJoin sname r0) (rows.drop 1) []

/-! ## Adapter construction. -/

/-- State of a constructed `McGillRawDatasetAlpha`. -/
structure AlphaState : Type where
  source : String
  fluence : ℚ
  current : ℚ
  exposure : ℚ
  energy : ℚ
  scans : List ℕ
  timePoints : List ℚ
  deriving DecidableEq, Repr

/-- State of a constructed `McGillRawDatasetBeta`. -/
structure BetaState : Type where
  source : String
  meta : IrisMeta
  deriving DecidableEq, Repr

/-- State of a constructed `McGillRawDatasetGamma` / `McGillRawDatasetDelta`
(or of their pump-off diagnostic subclasses): the metadata attributes set by
`super().__init__`, plus the four CSV key-value stores.  `scans` and
`timePoints` are separate fields because the pump-off subclasses reassign
them. -/
structure CsvGenState : Type where
  source : String
  meta : IrisMeta
  scans : List ℕ
  timePoints : List ℚ
  timestamps : List (String × ℚ)
  ecounts : List (String × ℚ)
  roomTemperature : List (String × ℚ)
  roomHumidity : List (String × ℚ)
  deriving DecidableEq, Repr

/-- Model of `value or default` on an optional metadata entry (Python `or`: the
default is also taken when the stored value is the sentinel `None` or the
falsy `0.0`). -/
def pyOrQ (o : Option (Option ℚ)) (dflt : ℚ) : ℚ :=
  match o with
  | some (some q) => if q = 0 then dflt else q
  | _ => dflt

/-- Model of `McGillRawDatasetAlpha.__init__` (`mcgill_alpha.py`, lines 34-80): the
directory guard, tag-file parsing (`open` of a missing file raising
`IOError`), metadata defaults, and the scan/time-point extraction from the
image files of the directory.  The acquisition-date step (lines 51-54) is
omitted: its only failure mode is an `AttributeError` explicitly suppressed
by the source, and no claim concerns it. -/
def alphaInit (fs : FS) (source : String) : Except PyError AlphaState :=
  if fs.isDir source = false then .error .valueError
  else do
    let lines ← liftOpt (fs.readLines (pyJoin source "tagfile.txt")) .ioError
    let md ← parse_tagfile lines
    let imageList := (fs.listDir source).filter (fun f =>
      fs.fileExists (pyJoin source f) &&
        (strEndsWith f ".tif" || strEndsWith f ".tiff"))
    let scans ← alphaScans imageList
    let tps ← alphaTimePoints imageList
    pure { source := source
           fluence := pyOrQ (dictGet md "fluence") 0
           current := pyOrQ (dictGet md "current") 0
           exposure := pyOrQ (dictGet md "exposure") 0
           energy := pyOrQ (dictGet md "energy") 90
           scans := scans
           timePoints := tps }

/-- Model of `McGillRawDatasetBeta.__init__` (`mcgill_beta.py`, lines 31-36): the
directory guard and `parse_metadata` (`ConfigParser.read` silently ignores a
missing file, hence the empty line list default). -/
def betaInit (fs : FS) (source : String) : Except PyError BetaState :=
  if fs.isDir source = false then .error .valueError
  else do
    let md ← parse_metadata ((fs.readLines (pyJoin source "metadata.cfg")).getD [])
    pure { source := source, meta := md }

def gammaReadKV (fs : FS) (source name : String) :
    Except PyError (List (String × ℚ)) := do
  let rows ← liftOpt (fs.readRows (pyJoin source name)) .ioError
  csv_to_kvstore_gamma rows

def deltaReadKV (fs : FS) (source name : String) :
    Except PyError (List (String × ℚ)) := do
  let rows ← liftOpt (fs.readRows (pyJoin source name)) .ioError
  csv_to_kvstore_delta source rows

/-- Model of `McGillRawDatasetGamma.__init__` (`mcgill_gamma.py`, lines 52-64). -/
def gammaInit (fs : FS) (source : String) : Except PyError CsvGenState :=
  if fs.isDir source = false then .error .valueError
  else do
    let md ← parse_metadata ((fs.readLines (pyJoin source "metadata.cfg")).getD [])
    let ts ← gammaReadKV fs source "timestamps.csv"
    let ec ← gammaReadKV fs source "ecounts.csv"
    let rt ← gammaReadKV fs source "room_temp.csv"
    let rh ← gammaReadKV fs source "room_humidity.csv"
    pure { source := source, meta := md, scans := md.scans
           timePoints := md.timePoints
           timestamps := ts, ecounts := ec
           roomTemperature := rt, roomHumidity := rh }

/-- Model of `McGillRawDatasetDelta.__init__` (`mcgill_delta.py`, lines 58-72):
identical to Gamma's up to `source = os.path.abspath(source)` and the
source-prefixed CSV keys. -/
def deltaInit (fs : FS) (source : String) : Except PyError CsvGenState :=
  if fs.isDir (pyAbspath source) = false then .error .valueError
  else do
    let src := pyAbspath source
    let md ← parse_metadata ((fs.readLines (pyJoin src "metadata.cfg")).getD [])
    let ts ← deltaReadKV fs src "timestamps.csv"
    let ec ← deltaReadKV fs src "ecounts.csv"
    let rt ← deltaReadKV fs src "room_temp.csv"
    let rh ← deltaReadKV fs src "room_humidity.csv"
    pure { source := src, meta := md, scans := md.scans
           timePoints := md.timePoints
           timestamps := ts, ecounts := ec
           roomTemperature := rt, roomHumidity := rh }

/-- A filesystem with no directories and no files. -/
def fsEmpty : FS :=
  ⟨fun _ => false, fun _ => false, fun _ => [], fun _ => none, fun _ => none,
    fun _ => none, fun _ => []⟩

def exceptOk {ε α : Type} : Except ε α → Bool
  | .ok _ => true
  | .error _ => false

/-! ## Nearest-timestamp lookups (`mcgill_gamma.py` lines 66-94,
`mcgill_delta.py` lines 74-102). -/

/-- Model of `min()` over the keys of a dict: `ValueError` on an empty dict. -/
def listMinQ : List ℚ → Option ℚ
  | [] => none
  | x :: xs => some (xs.foldl min x)

/-- Core of the six `nearest_*` methods: build the dict comprehension
`{abs(v) - timestamp: k for (k, v) in self.timestamps.items() if pred k}` —
`abs(v) - timestamp`, exactly as in the source, not `abs(v - timestamp)` —
take `min` of its keys (`ValueError` when no entry passed the filter) and
return the filename stored under that minimum. -/
def nearestKeyBy (pred : String → Bool) (table : List (String × ℚ)) (q : ℚ) :
    Except PyError String :=
  let fnames := buildDict ((table.filter (fun kv => pred kv.1)).map
    (fun kv => (qSub (qAbs kv.2) q, kv.1)))
  match listMinQ (fnames.map (·.1)) with
  | none => .error .valueError
  | some m => liftOpt (dictGet fnames m) .keyError

/-- Gamma `nearest_laserbg`: filter `k.parent == Path("laser_background")`. -/
def gamma_nearest_laserbg_key (table : List (String × ℚ)) (q : ℚ) :
    Except PyError String :=
  nearestKeyBy (fun k => parentOf k == "laser_background") table q

/-- Gamma `nearest_pumpoff`: filter `k.parent == Path("pump_off")`. -/
def gamma_nearest_pumpoff_key (table : List (String × ℚ)) (q : ℚ) :
    Except PyError String :=
  nearestKeyBy (fun k => parentOf k == "pump_off") table q

/-- Gamma `nearest_dark`: filter `k.parent == Path("dark_image")`. -/
def gamma_nearest_dark_key (table : List (String × ℚ)) (q : ℚ) :
    Except PyError String :=
  nearestKeyBy (fun k => parentOf k == "dark_image") table q

/-- Delta `nearest_laserbg`: filter `"laser_background" in k`. -/
def delta_nearest_laserbg_key (table : List (String × ℚ)) (q : ℚ) :
    Except PyError String :=
  nearestKeyBy (fun k => strContains k "laser_background") table q

/-- Delta `nearest_pumpoff`: filter `"pump_off" in k`. -/
def delta_nearest_pumpoff_key (table : List (String × ℚ)) (q : ℚ) :
    Except PyError String :=
  nearestKeyBy (fun k => strContains k "pump_off") table q

/-- Delta `nearest_dark`: filter `"dark_image" in k`. -/
def delta_nearest_dark_key (table : List (String × ℚ)) (q : ℚ) :
    Except PyError String :=
  nearestKeyBy (fun k => strContains k "dark_image") table q

/-- Gamma `nearest_laserbg`, including the final
`diffread(self.source / fnames[nearest_timestamp])`. -/
def gamma_nearest_laserbg (fs : FS) (st : CsvGenState) (q : ℚ) :
    Except PyError Image := do
  let k ← gamma_nearest_laserbg_key st.timestamps q
  liftOpt (fs.readImage (pyJoin st.source k)) .ioError

def gamma_nearest_pumpoff (fs : FS) (st : CsvGenState) (q : ℚ) :
    Except PyError Image := do
  let k ← gamma_nearest_pumpoff_key st.timestamps q
  liftOpt (fs.readImage (pyJoin st.source k)) .ioError

def gamma_nearest_dark (fs : FS) (st : CsvGenState) (q : ℚ) :
    Except PyError Image := do
  let k ← gamma_nearest_dark_key st.timestamps q
  liftOpt (fs.readImage (pyJoin st.source k)) .ioError

/-- Delta `nearest_laserbg`, including the final `diffread(os.path.join(
self.source, fnames[nearest_timestamp]))` (the stored key is already
source-absolute, so the join returns it unchanged). -/
def delta_nearest_laserbg (fs : FS) (st : CsvGenState) (q : ℚ) :
    Except PyError Image := do
  let k ← delta_nearest_laserbg_key st.timestamps q
  liftOpt (fs.readImage (pyJoin st.source k)) .ioError

def delta_nearest_pumpoff (fs : FS) (st : CsvGenState) (q : ℚ) :
    Except PyError Image := do
  let k ← delta_nearest_pumpoff_key st.timestamps q
  liftOpt (fs.readImage (pyJoin st.source k)) .ioError

def delta_nearest_dark (fs : FS) (st : CsvGenState) (q : ℚ) :
    Except PyError Image := do
  let k ← delta_nearest_dark_key st.timestamps q
  liftOpt (fs.readImage (pyJoin st.source k)) .ioError

/-! ## Concrete sample data used by witnesses and counterexamples. -/

def metaEmpty : IrisMeta := ⟨"", "", "", "", "", "", "", [], []⟩

def metaSample : IrisMeta :=
  ⟨"90", "2020-01-01", "1.5", "300", "1.0", "none", "800", [1, 2], [-1, 0, 1]⟩

/-- A CSV-generation adapter state whose timestamp table has no entry in any
background category. -/
def stSample : CsvGenState :=
  ⟨"/d", metaSample, [1, 2], [-1, 0, 1], [("other/x.tif", 5)], [], [], []⟩

/-! ## Raw-image retrieval. -/

/-- Kernel-computable division, used only to model `npstreams.average`. -/
def qDiv (a b : ℚ) : ℚ :=
  mkRatLite (a.num * b.den * b.num.sign) (a.den * b.num.natAbs)

/-- Model of `npstreams.average`: the pointwise mean of a non-empty list of images
(`none` models the undefined average of no images). -/
def imagesAverage : List Image → Option Image
  | [] => none
  | im :: ims =>
    some ((ims.foldl (fun acc i => List.zipWith qAdd acc i) im).map
      (fun x => qDiv x (mkRatLite (1 + (ims.length : ℤ)) 1)))

/-- Model of `McGillRawDatasetAlpha.background` (`mcgill_alpha.py`, lines 100-105):
the average of the images matching `background.*.pumpon.tif` (the
`lru_cache` memoization is a no-op in a pure model). -/
def alphaBackground (fs : FS) (source : String) : Except PyError Image := do
  let imgs ← liftOpt
    ((fs.glob (pyJoin source "background.*.pumpon.tif")).mapM fs.readImage)
    .ioError
  liftOpt (imagesAverage imgs) .valueError

/-- Model of `McGillRawDatasetAlpha.raw_data` (`mcgill_alpha.py`, lines 107-147,
body below the `@check_raw_bounds` decorator): `diffread` of the constructed
filename (`IOError` when the file is missing or unreadable; `astype(np.float)`
is the identity on the rational model), then, when `bgr`, subtraction of the
laser background and the clamp `im[im < 0] = 0`. -/
def alpha_raw_data (fs : FS) (st : AlphaState) (t : ℤ) (scan : ℕ)
    (bgr : Bool) : Except PyError Image := do
  let im ← liftOpt (fs.readImage (pyJoin st.source (alpha_raw_fname t scan)))
    .ioError
  if bgr then
    let bg ← alphaBackground fs st.source
    pure (imClampNeg (imSub im bg))
  else
    pure im

/-- Model of `McGillRawDatasetBeta.raw_data` (`mcgill_beta.py`, lines 67-102, body):
`next(iglob(...))` on the pattern with the embedded-timestamp wildcard;
`StopIteration` is caught and re-raised as `IOError`. -/
def beta_raw_data (fs : FS) (st : BetaState) (t : ℤ) (scan : ℕ) :
    Except PyError Image :=
  match fs.glob (beta_glob_pattern st.source t scan) with
  | [] => .error .ioError
  | f :: _ => liftOpt (fs.readImage f) .ioError

def gammaFnameAbs (st : CsvGenState) (t : ℤ) (scan : ℕ) : String :=
  pyJoin st.source (gamma_rel_fname t scan)

/-- Model of `McGillRawDatasetGamma.raw_data` (`mcgill_gamma.py`, lines 157-200,
body): explicit existence check raising `IOError`, `diffread`, and, when
`bgr`, subtraction of the laser background nearest to the timestamp stored
under `fname.relative_to(self.source)` — without any clamp.  The `@asfarray`
decorator is the identity on the rational model. -/
def gamma_raw_data (fs : FS) (st : CsvGenState) (t : ℤ) (scan : ℕ)
    (bgr : Bool) : Except PyError Image :=
  if fs.fileExists (gammaFnameAbs st t scan) = false then
    .error .ioError
  else do
  let im ← liftOpt (fs.readImage (gammaFnameAbs st t scan)) .ioError
  if bgr then
    let ts ← liftOpt (dictGet st.timestamps (gamma_rel_fname t scan)) .keyError
    let bg ← gamma_nearest_laserbg fs st ts
    pure (imSub im bg)
  else
    pure im

/-- Model of `McGillRawDatasetDelta.raw_data` (`mcgill_delta.py`, lines 165-207,
body): as Gamma's, but with `os.path.exists` and the timestamp looked up
under the absolute `fname` (Delta's table keys are source-prefixed). -/
def delta_raw_data (fs : FS) (st : CsvGenState) (t : ℤ) (scan : ℕ)
    (bgr : Bool) : Except PyError Image :=
  if fs.fileExists (delta_fname st.source t scan) = false then
    .error .ioError
  else do
  let im ← liftOpt (fs.readImage (delta_fname st.source t scan)) .ioError
  if bgr then
    let ts ← liftOpt (dictGet st.timestamps (delta_fname st.source t scan))
      .keyError
    let bg ← delta_nearest_laserbg fs st ts
    pure (imSub im bg)
  else
    pure im

/-- Modelled from the spec: `check_raw_bounds` is the bounds-checking
decorator of the external `iris` framework (not part of this repository).
It validates the requested time-delay and scan number against the dataset's
`time_points` and `scans` and raises `ValueError` for an out-of-range
request, before the wrapped method runs. -/
def check_raw_bounds {α : Type} (timePoints : List ℚ) (scans : List ℕ)
    (tval : ℚ) (scan : ℕ) (body : Except PyError α) : Except PyError α :=
  if tval ∈ timePoints ∧ scan ∈ scans then body else .error .valueError

/-- Model of `raw_data` as exposed by the Alpha adapter: the body wrapped by
`@check_raw_bounds` (`t` in hundredths, so the requested value is
`t / 100`). -/
def alpha_raw_data_checked (fs : FS) (st : AlphaState) (t : ℤ) (scan : ℕ)
    (bgr : Bool) : Except PyError Image :=
  check_raw_bounds st.timePoints st.scans (mkRatLite t 100) scan
    (alpha_raw_data fs st t scan bgr)

/-- Model of `raw_data` as exposed by the Beta adapter (`t` in thousandths). -/
def beta_raw_data_checked (fs : FS) (st : BetaState) (t : ℤ) (scan : ℕ) :
    Except PyError Image :=
  check_raw_bounds st.meta.timePoints st.meta.scans (mkRatLite t 1000) scan
    (beta_raw_data fs st t scan)

/-- Model of `raw_data` as exposed by the Gamma adapter (`t` in thousandths). -/
def gamma_raw_data_checked (fs : FS) (st : CsvGenState) (t : ℤ) (scan : ℕ)
    (bgr : Bool) : Except PyError Image :=
  check_raw_bounds st.timePoints st.scans (mkRatLite t 1000) scan
    (gamma_raw_data fs st t scan bgr)

/-- Model of `raw_data` as exposed by the Delta adapter (`t` in thousandths). -/
def delta_raw_data_checked (fs : FS) (st : CsvGenState) (t : ℤ) (scan : ℕ)
    (bgr : Bool) : Except PyError Image :=
  check_raw_bounds st.timePoints st.scans (mkRatLite t 1000) scan
    (delta_raw_data fs st t scan bgr)

/-- An Alpha state as produced by a successful construction (see the C7
witness). -/
def stASample : AlphaState :=
  ⟨"/a", 0, 0, 1, 90, [1], [mkRatLite (-1) 2, mkRatLite 3 2]⟩

def stBSample : BetaState := ⟨"/b", metaSample⟩

/-- A filesystem holding one pump-on frame with intensity 3 and one laser
background with intensity 8, for the Gamma/Delta source `/d`. -/
def fsNeg : FS :=
  { isDir := fun p => p == "/d"
    fileExists := fun p => p == "/d/scan_0001/pumpon_+00000.000ps.tif"
    listDir := fun _ => []
    readLines := fun _ => none
    readRows := fun _ => none
    readImage := fun p =>
      if p = "/d/scan_0001/pumpon_+00000.000ps.tif" then some [3]
      else if p = "/d/laser_background/bg.tif" then some [8]
      else none
    glob := fun _ => [] }

def stGNeg : CsvGenState :=
  ⟨"/d", metaSample, [1, 2], [-1, 0, 1],
    [("scan_0001/pumpon_+00000.000ps.tif", 50), ("laser_background/bg.tif", 10)],
    [], [], []⟩

def stDNeg : CsvGenState :=
  ⟨"/d", metaSample, [1, 2], [-1, 0, 1],
    [("/d/scan_0001/pumpon_+00000.000ps.tif", 50),
      ("/d/laser_background/bg.tif", 10)],
    [], [], []⟩

/-- A filesystem for the Alpha source `/a` with one pump-on frame of
intensity 3 and one laser-background frame of intensity 8. -/
def fsC6a : FS :=
  { isDir := fun p => p == "/a"
    fileExists := fun _ => false
    listDir := fun _ => []
    readLines := fun _ => none
    readRows := fun _ => none
    readImage := fun p =>
      if p = "/a/data.timedelay.+0.00.nscan.01.pumpon.tif" then some [3]
      else if p = "/a/bg1.tif" then some [8]
      else none
    glob := fun p =>
      if p = "/a/background.*.pumpon.tif" then ["/a/bg1.tif"] else [] }

/-! ## Pump-off diagnostic subclasses (`McGillRawDatasetGammaPumpoff.__init__`,
`mcgill_gamma.py` lines 220-230; `McGillRawDatasetDeltaPumpoff.__init__`,
`mcgill_delta.py` lines 227-237). -/

/-- Gamma pump-off time-points: the timestamps of the entries under
`pump_off`, sorted (`sorted(self.timestamps[fname] for fname in fnames)`;
`np.asfarray` is the identity on the rational model).  No de-duplication
happens: `fnames` is a set of *keys*, whose *values* may repeat. -/
def gammaPumpoffTimePoints (timestamps : List (String × ℚ)) : List ℚ :=
  ((timestamps.filter (fun kv => parentOf kv.1 == "pump_off")).map
    (·.2)).insertionSort (· ≤ ·)

def gammaPumpoffInit (fs : FS) (source : String) :
    Except PyError CsvGenState :=
  match gammaInit fs source with
  | .error e => .error e
  | .ok st =>
    .ok { st with scans := [1],
                  timePoints := gammaPumpoffTimePoints st.timestamps }

/-- The `metadata.cfg` of the sample Gamma/Delta directory. -/
def cfgSampleLines : List String :=
  ["[EXPERIMENTAL PARAMETERS]",
   "electron energy = 90 # keV",
   "acquisition date = 2020-01-01",
   "fluence = 1.5",
   "temperature = 300",
   "exposure = 1.0",
   "notes = none",
   "pump wavelength = 800",
   "nscans = 2",
   "time points = [-1.0, 0.0, 1.0]"]

/-- A `timestamps.csv` whose two pump-off frames carry the same timestamp. -/
def tsRowsDup : List (List String) :=
  [["path", "timestamp"],
   ["pump_off/a.tif", "100.0"],
   ["pump_off/b.tif", "100.0"],
   ["laser_background/bg1.tif", "10.0"]]

/-- A complete Gamma/Delta raw-data directory at `/d`. -/
def fsCsv : FS :=
  { isDir := fun p => p == "/d"
    fileExists := fun _ => false
    listDir := fun _ => []
    readLines := fun p => if p = "/d/metadata.cfg" then some cfgSampleLines
      else none
    readRows := fun p =>
      if p = "/d/timestamps.csv" then some tsRowsDup
      else if p = "/d/ecounts.csv" then some [["path", "value"]]
      else if p = "/d/room_temp.csv" then some [["path", "value"]]
      else if p = "/d/room_humidity.csv" then some [["path", "value"]]
      else none
    readImage := fun _ => none
    glob := fun _ => [] }

def csvStateOf (r : Except PyError CsvGenState) : CsvGenState :=
  match r with
  | .ok st => st
  | .error _ => ⟨"", metaEmpty, [], [], [], [], [], []⟩

def timePointsOfC (r : Except PyError CsvGenState) : List ℚ :=
  (csvStateOf r).timePoints

/-- The Alpha raw-data directory at `/a`: a tag file and two pump-on frames
at time-delays +1.50 and -0.50 of scan 1. -/
def fsA : FS :=
  { isDir := fun p => p == "/a"
    fileExists := fun p =>
      p == "/a/data.timedelay.+1.50.nscan.01.pumpon.tif" ||
      p == "/a/data.timedelay.-0.50.nscan.01.pumpon.tif"
    listDir := fun p =>
      if p = "/a" then
        ["data.timedelay.+1.50.nscan.01.pumpon.tif",
         "data.timedelay.-0.50.nscan.01.pumpon.tif"]
      else []
    readLines := fun p => if p = "/a/tagfile.txt" then some ["Exposure = 1.0s"]
      else none
    readRows := fun _ => none
    readImage := fun _ => none
    glob := fun _ => [] }

/-! ## `electron_count` (`mcgill_gamma.py` lines 125-155, `mcgill_delta.py`
lines 133-163). -/

/-- Evaluating the name `img_fname` — which is bound nowhere in
`electron_count` (the filename variable is called `fname`) — raises
`NameError`. -/
def undefined_img_fname : Except PyError String := .error .nameError

/-- Model of `pathlib.Path.relative_to` restricted to the happy path (only ever
reached in dead code here). -/
def pyRelativeTo (p base : String) : String :=
  if leadSeq (base ++ "/").data p.data then ⟨p.data.drop (base.length + 1)⟩
  else p

def gamma_electron_count (fs : FS) (st : CsvGenState) (t : ℤ) (scan : ℕ) :
    Except PyError ℚ :=
  if fs.fileExists (gammaFnameAbs st t scan) = false then .error .ioError
  else do
    let imgFname ← undefined_img_fname
    liftOpt (dictGet st.ecounts (pyRelativeTo imgFname st.source)) .keyError

/-- Model of `fname.exists()` where `fname` is the plain string returned by
`os.path.join` (`mcgill_delta.py`, line 159): `str` has no attribute
`exists`, so the call raises `AttributeError` regardless of the
filesystem. -/
def strPathExists (fname : String) : Except PyError Bool :=
  .error .attributeError

def delta_electron_count (fs : FS) (st : CsvGenState) (t : ℤ) (scan : ℕ) :
    Except PyError ℚ := do
  let ex ← strPathExists (delta_fname st.source t scan)
  if ex = false then .error .ioError
  else do
    let imgFname ← undefined_img_fname
    liftOpt (dictGet st.ecounts (pyRelativeTo imgFname st.source)) .keyError

/-! ## `McGillRawDatasetDeltaPumpoff.__init__` (`mcgill_delta.py`, lines
227-237). -/

/-- Model of `k.parent` where `k` is one of Delta's timestamp-table keys: those keys
are plain strings (`os.path.join` output), and `str` has no attribute
`parent`, so the access raises `AttributeError`. -/
def strParent (k : String) : Except PyError String := .error .attributeError

/-- The set comprehension `{k for (k, v) in self.timestamps.items() if
k.parent == os.path.abspath("pump_off")}`: the predicate is evaluated on
each item in turn, so the first item already raises. -/
def deltaPumpoffKeys : List (String × ℚ) → Except PyError (List String)
  | [] => .ok []
  | (k, _) :: rest =>
    strParent k >>= fun p =>
      deltaPumpoffKeys rest >>= fun tail =>
        .ok (if p == pyAbspath "pump_off" then k :: tail else tail)

/-- Model of `McGillRawDatasetDeltaPumpoff.__init__`: the Delta constructor, then
`scans = [1]` and the pump-off time-points (the `self.timestamps[fname]`
lookups are over the table's own keys and always succeed; `getD 0` models
them). -/
def deltaPumpoffInit (fs : FS) (source : String) :
    Except PyError CsvGenState :=
  match deltaInit fs source with
  | .error e => .error e
  | .ok st =>
    deltaPumpoffKeys st.timestamps >>= fun fnames =>
      .ok { st with
            scans := [1]
            timePoints := ((fnames.map
              (fun k => (dictGet st.timestamps k).getD 0)).insertionSort
              (· ≤ ·)) }

/-! ## Theorems. -/
theorem mkRatLite_eq (n : ℤ) (d : ℕ) (hd : d ≠ 0) :
    mkRatLite n d = (n : ℚ) / d := by
  unfold mkRatLite
  set g := Nat.gcd n.natAbs d with hgdef
  have hgd : g ∣ d := Nat.gcd_dvd_right _ _
  have hgn : ((g : ℤ)) ∣ n := by
    rw [← Int.natAbs_dvd_natAbs, Int.natAbs_ofNat]
    exact Nat.gcd_dvd_left _ _
  have hg0 : g ≠ 0 := Nat.gcd_ne_zero_right hd
  obtain ⟨a, ha⟩ := hgn
  obtain ⟨b, hb⟩ := hgd
  have hgz : ((g : ℤ)) ≠ 0 := Int.natCast_ne_zero.mpr hg0
  have hna : n / ((g : ℤ)) = a := by
    rw [ha]
    exact Int.mul_ediv_cancel_left _ hgz
  have hdb : d / g = b := by
    rw [hb]
    exact Nat.mul_div_cancel_left _ (Nat.pos_of_ne_zero hg0)
  have hb0 : b ≠ 0 := by
    intro hb0
    exact hd (by rw [hb, hb0, Nat.mul_zero])
  have hcop : (n / ((g : ℤ))).natAbs.Coprime (d / g) := by
    have h1 : (n / ((g : ℤ))).natAbs = n.natAbs / g := by
      rw [hna, ha, Int.natAbs_mul, Int.natAbs_ofNat,
        Nat.mul_div_cancel_left _ (Nat.pos_of_ne_zero hg0)]
    rw [h1, hgdef]
    exact Nat.coprime_div_gcd_div_gcd
      (Nat.pos_of_ne_zero (hgdef ▸ hg0))
  rw [dif_pos ⟨by rw [hdb]; exact hb0, hcop⟩, Rat.mk'_eq_divInt, hna, hdb,
    Rat.divInt_eq_div, ha, hb]
  push_cast
  rw [mul_div_mul_left _ _ (show ((g : ℚ)) ≠ 0 by exact_mod_cast hgz)]

theorem mkRatLite_eq_mkRat (n : ℤ) (d : ℕ) : mkRatLite n d = mkRat n d := by
  by_cases hd : d = 0
  · subst hd
    have h1 : mkRatLite n 0 = 0 := by
      unfold mkRatLite
      rw [dif_neg]
      intro h
      exact h.1 (Nat.zero_div _)
    rw [h1]
    simp [mkRat]
  · rw [mkRatLite_eq n d hd, Rat.mkRat_eq_divInt, Rat.divInt_eq_div]
    norm_cast

theorem qAdd_eq (a b : ℚ) : qAdd a b = a + b := by
  unfold qAdd
  rw [mkRatLite_eq_mkRat, ← Rat.add_def']

theorem qSub_eq (a b : ℚ) : qSub a b = a - b := by
  unfold qSub
  rw [mkRatLite_eq_mkRat, ← Rat.sub_def']

theorem qNeg_eq (a : ℚ) : qNeg a = -a := by
  unfold qNeg
  rw [mkRatLite_eq_mkRat, ← Rat.divInt_ofNat, ← Rat.neg_def]

theorem qAbs_eq (a : ℚ) : qAbs a = |a| := by
  unfold qAbs
  rw [mkRatLite_eq_mkRat, ← Rat.divInt_ofNat, ← Rat.abs_def]

theorem liftOpt_ok {α : Type} {o : Option α} {e : PyError} {a : α}
    (h : liftOpt o e = .ok a) : o = some a := by
  cases o with
  | none => simp [liftOpt] at h
  | some b => simp [liftOpt] at h; simp [h]

theorem insertOrReplace_ne_nil {α β : Type} [DecidableEq α]
    (d : List (α × β)) (kv : α × β) : insertOrReplace d kv ≠ [] := by
  cases d with
  | nil => simp [insertOrReplace]
  | cons hd tl =>
    obtain ⟨k, v⟩ := hd
    by_cases h : k = kv.1 <;> simp [insertOrReplace, h]

/-! ### Facts about `splitOnChar`, used to relate the source's
split-and-unpack to the first-`=`-occurrence reading of the spec. -/

theorem splitOnChar_ne_nil (c : Char) (l : List Char) : splitOnChar c l ≠ [] := by
  cases l with
  | nil => simp [splitOnChar]
  | cons x xs =>
    simp only [splitOnChar]
    cases h : splitOnChar c xs with
    | nil => by_cases hx : x = c <;> simp [hx]
    | cons hd tl => by_cases hx : x = c <;> simp [hx]

theorem splitOnChar_single {c : Char} :
    ∀ {l m : List Char}, splitOnChar c l = [m] → l = m ∧ m.all (· != c) := by
  intro l
  induction l with
  | nil =>
    intro m h
    simp only [splitOnChar] at h
    injection h with h1 _
    subst h1
    exact ⟨rfl, rfl⟩
  | cons x xs ih =>
    intro m h
    cases hs : splitOnChar c xs with
    | nil => exact absurd hs (splitOnChar_ne_nil c xs)
    | cons hd tl =>
      simp only [splitOnChar, hs] at h
      by_cases hx : x = c
      · rw [if_pos hx] at h
        exact absurd h (by simp)
      · rw [if_neg hx] at h
        injection h with h1 h2
        subst h2
        obtain ⟨hxs, hall⟩ := ih hs
        subst hxs
        refine ⟨by rw [← h1], ?_⟩
        rw [← h1, List.all_cons, hall, Bool.and_true, bne_iff_ne]
        exact hx

theorem splitOnChar_pair {c : Char} :
    ∀ {l a b : List Char}, splitOnChar c l = [a, b] →
      l = a ++ c :: b ∧ a.all (· != c) := by
  intro l
  induction l with
  | nil => intro a b h; simp [splitOnChar] at h
  | cons x xs ih =>
    intro a b h
    cases hs : splitOnChar c xs with
    | nil => exact absurd hs (splitOnChar_ne_nil c xs)
    | cons hd tl =>
      simp only [splitOnChar, hs] at h
      by_cases hx : x = c
      · rw [if_pos hx] at h
        injection h with h1 h2
        injection h2 with h3 h4
        subst h1
        obtain ⟨hxs, _⟩ := splitOnChar_single (c := c) (l := xs) (m := b)
          (by rw [hs, h3, h4])
        subst hxs
        exact ⟨by rw [hx]; rfl, rfl⟩
      · rw [if_neg hx] at h
        injection h with h1 h2
        subst h2
        obtain ⟨hxs, hall⟩ := ih hs
        subst hxs
        refine ⟨by rw [← h1, List.cons_append], ?_⟩
        rw [← h1, List.all_cons, hall, Bool.and_true, bne_iff_ne]
        exact hx

theorem takeWhile_append_sep {c : Char} :
    ∀ {a : List Char}, a.all (· != c) → ∀ b : List Char,
      (a ++ c :: b).takeWhile (· != c) = a := by
  intro a
  induction a with
  | nil => intro _ b; simp [List.takeWhile]
  | cons x xs ih =>
    intro h b
    rw [List.all_cons, Bool.and_eq_true] at h
    simp only [List.cons_append, List.takeWhile_cons, h.1]
    simp [ih h.2 b]

theorem dropWhile_append_sep {c : Char} :
    ∀ {a : List Char}, a.all (· != c) → ∀ b : List Char,
      (a ++ c :: b).dropWhile (· != c) = c :: b := by
  intro a
  induction a with
  | nil => intro _ b; simp [List.dropWhile]
  | cons x xs ih =>
    intro h b
    rw [List.all_cons, Bool.and_eq_true] at h
    simp only [List.cons_append, List.dropWhile_cons, h.1]
    simp [ih h.2 b]

theorem parseTagLine_ok {line : String} {kv : String × Option ℚ}
    (h : parseTagLine line = .ok kv) : kv = amendedLine line := by
  cases hs : splitOnChar '=' (removeWS line).data with
  | nil => simp [parseTagLine, hs] at h
  | cons k tl =>
    cases tl with
    | nil => simp [parseTagLine, hs] at h
    | cons v tl2 =>
      cases tl2 with
      | cons w tl3 => simp [parseTagLine, hs] at h
      | nil =>
        simp only [parseTagLine, hs, Except.ok.injEq] at h
        obtain ⟨hl, hall⟩ := splitOnChar_pair hs
        rw [← h]
        unfold amendedLine amendedKey amendedVal
        rw [hl, takeWhile_append_sep hall, dropWhile_append_sep hall]
        rfl

theorem tagLinesGo_ok : ∀ (lines : List String)
    (acc d : List (String × Option ℚ)),
    tagLinesGo lines acc = .ok d →
    d = (lines.map amendedLine).foldl insertOrReplace acc := by
  intro lines
  induction lines with
  | nil =>
    intro acc d h
    simp only [tagLinesGo] at h
    injection h with h1
    simp [h1]
  | cons l ls ih =>
    intro acc d h
    cases hp : parseTagLine l with
    | error e => simp [tagLinesGo, hp] at h
    | ok kv =>
      simp only [tagLinesGo, hp] at h
      rw [ih (insertOrReplace acc kv) d h, List.map_cons, List.foldl_cons,
        ← parseTagLine_ok hp]

/-- C2 (counterexample).  On the tag file consisting of the single line
`"a b = s5"` the parser returns the dictionary `{"ab": 5.0}`: the key is not
the whitespace-stripped key of the line (`"a b"`), and the value `s5` — which
is non-numeric even after stripping a *trailing* `'s'` — is stored as the
float `5.0` rather than the missing-value sentinel, because the code strips
`'s'` from both ends. -/
theorem c2_parse_tagfile_counterexample :
    parse_tagfile ["a b = s5"] = .ok [("ab", some 5)] ∧
    lowerStr (stripWSBoth "a b") = "a b" ∧
    pyFloat? (stripTrailingChar 's' "s5") = none ∧
    ("ab" : String) ≠ "a b" ∧ some (5 : ℚ) ≠ (none : Option ℚ) :=
  ⟨by decide, by decide, by decide, by decide, by decide⟩

/-- C2 (amended).  For every tag file on which `parse_tagfile` succeeds, the
returned dictionary binds, for each line, the lower-cased key obtained by
removing **all** whitespace (interior included) before the first `=` to the
float parsed from the remainder of the line after stripping `'s'` from
**both** ends, or to the sentinel `none` when that remainder does not parse
as a number (later duplicate keys overwriting earlier ones). -/
theorem c2_parse_tagfile_amended (lines : List String)
    (d : List (String × Option ℚ)) (h : parse_tagfile lines = .ok d) :
    d = buildDict (lines.map amendedLine) :=
  tagLinesGo_ok lines [] d h

/-- C2 (witness): the amended theorem applied to a concrete three-line tag
file with a numeric value carrying an `'s'` unit suffix, a plain numeric
value, and a `BLANK` value. -/
theorem c2_parse_tagfile_witness :
    parse_tagfile ["Exposure = 1.0s", "Energy = 90", "Notes = BLANK"] =
      .ok [("exposure", some 1), ("energy", some 90), ("notes", none)] ∧
    [("exposure", some 1), ("energy", some 90), ("notes", none)] =
      buildDict (["Exposure = 1.0s", "Energy = 90", "Notes = BLANK"].map
        amendedLine) := by
  have h : parse_tagfile ["Exposure = 1.0s", "Energy = 90", "Notes = BLANK"] =
      .ok [("exposure", some 1), ("energy", some 90), ("notes", none)] := by
    decide
  exact ⟨h, c2_parse_tagfile_amended _ _ h⟩

/-! ## Python number formatting (`mcgill_alpha` / `mcgill_beta` /
`mcgill_gamma` / `mcgill_delta` filename construction).

Time-delays are scaled integers (`t` stands for `t / 10^prec`), on which the
fixed-point format specifiers used by the adapters are exact. -/

theorem strAppend_assoc (a b c : String) : (a ++ b) ++ c = a ++ (b ++ c) := by
  obtain ⟨la⟩ := a
  obtain ⟨lb⟩ := b
  obtain ⟨lc⟩ := c
  show String.mk ((la ++ lb) ++ lc) = String.mk (la ++ (lb ++ lc))
  rw [List.append_assoc]

theorem strData_append (a b : String) : (a ++ b).data = a.data ++ b.data := rfl

theorem strAppend_empty_l (s : String) : "" ++ s = s := by
  obtain ⟨l⟩ := s
  show String.mk ([] ++ l) = String.mk l
  rw [List.nil_append]

/-- C3.  Filename construction is the claimed fixed format string: the Alpha
filename is `data.timedelay.` + sign + the 2-decimal rendering + `.nscan.` +
the scan zero-padded to 2 digits + `.pumpon.tif`; the Beta/Gamma/Delta image
name is the scan directory (scan number zero-padded to 4 digits) and
`pumpon_` + the sign-prefixed rendering zero-padded to width 10 with
3 decimals + `ps`; and the construction equals the expected literal string on
concrete (scan, time-delay) pairs, including the template
`data.timedelay.+1.00.nscan.04.pumpon.tif` from the source's own comment. -/
theorem c3_filename_construction :
    (∀ (t : ℤ) (s : ℕ), alpha_raw_fname t s =
      "data.timedelay." ++ specSignPrefix t ++ fmtFixedNat 2 t.natAbs ++
        ".nscan." ++ padLeftZeros 2 (Nat.repr s) ++ ".pumpon.tif") ∧
    (∀ (t : ℤ) (s : ℕ), gamma_rel_fname t s =
      "scan_" ++ padLeftZeros 4 (Nat.repr s) ++ "/" ++ "pumpon_" ++
        specSignPrefix t ++ padLeftZeros 9 (fmtFixedNat 3 t.natAbs) ++
        "ps.tif") ∧
    alpha_raw_fname 100 4 = "data.timedelay.+1.00.nscan.04.pumpon.tif" ∧
    alpha_raw_fname (-150) 2 = "data.timedelay.-1.50.nscan.02.pumpon.tif" ∧
    alpha_raw_fname 5 11 = "data.timedelay.+0.05.nscan.11.pumpon.tif" ∧
    gamma_rel_fname 5000 1 = "scan_0001/pumpon_+00005.000ps.tif" ∧
    gamma_rel_fname (-12500) 32 = "scan_0032/pumpon_-00012.500ps.tif" ∧
    beta_scan_dir "/d" 132 = "/d/scan 0132" ∧
    beta_glob_pattern "/d" 5000 132 = "/d/scan 0132/pumpon_+00005.000ps_*.tif" ∧
    delta_fname "/d" (-5000) 7 = "/d/scan_0007/pumpon_-00005.000ps.tif" := by
  refine ⟨?_, ?_, by decide, by decide, by decide, by decide, by decide,
    by decide, by decide, by decide⟩
  · intro t s
    apply String.ext
    by_cases h : t < 0 <;>
      simp [alpha_raw_fname, pyFmtDot2, specSignPrefix, h, strData_append,
        List.append_assoc]
  · intro t s
    have hpj : gamma_rel_fname t s = ("scan_" ++ pyFmt04d s) ++ "/" ++
        ("pumpon_" ++ pyFmtPlus010Dot3 t ++ "ps.tif") := rfl
    rw [hpj]
    apply String.ext
    by_cases h : t < 0 <;>
      simp [pyFmt04d, pyFmtPlus010Dot3, specSignPrefix, h, strData_append,
        List.append_assoc]

/-- C4.  Construction of any of the four adapters on a source that is not an
existing directory fails with `ValueError` before any metadata file is read:
the conclusion holds for every filesystem, in particular whatever the
metadata files contain or whether they exist at all. -/
theorem c4_invalid_source_dir (fs : FS) (source : String) :
    (fs.isDir source = false →
      alphaInit fs source = .error .valueError ∧
      betaInit fs source = .error .valueError ∧
      gammaInit fs source = .error .valueError) ∧
    (fs.isDir (pyAbspath source) = false →
      deltaInit fs source = .error .valueError) := by
  constructor
  · intro h
    refine ⟨?_, ?_, ?_⟩ <;> simp [alphaInit, betaInit, gammaInit, h]
  · intro h
    simp [deltaInit, h]

/-- C4 (witness): the theorem applied to the empty filesystem and a concrete
missing source directory. -/
theorem c4_invalid_source_dir_witness :
    alphaInit fsEmpty "/missing" = .error .valueError ∧
    betaInit fsEmpty "/missing" = .error .valueError ∧
    gammaInit fsEmpty "/missing" = .error .valueError ∧
    deltaInit fsEmpty "/missing" = .error .valueError := by
  obtain ⟨h1, h2⟩ := c4_invalid_source_dir fsEmpty "/missing"
  obtain ⟨ha, hb, hg⟩ := h1 rfl
  exact ⟨ha, hb, hg, h2 rfl⟩

/-- Inversion of a successful `Except` bind. -/
theorem bindE_ok {α β : Type} {x : Except PyError α} {f : α → Except PyError β}
    {b : β} (h : x >>= f = .ok b) : ∃ a, x = .ok a ∧ f a = .ok b := by
  cases x with
  | error e => simp [Bind.bind, Except.bind] at h
  | ok a => exact ⟨a, rfl, h⟩

/-- An empty filtered table makes the `min()` in `nearestKeyBy` raise
`ValueError`. -/
theorem nearestKeyBy_empty (pred : String → Bool) (table : List (String × ℚ))
    (q : ℚ) (h : table.filter (fun kv => pred kv.1) = []) :
    nearestKeyBy pred table q = .error .valueError := by
  unfold nearestKeyBy
  rw [h]
  rfl

/-- C1 (code bug).  With the two laser backgrounds `a` (timestamp 10) and
`b` (timestamp 100) and the query timestamp 100, both the Gamma and the
Delta lookup select `a`, although `b` is strictly nearer to the query
(`|100 - 100| = 0 < 90 = |10 - 100|`): the comprehension key is
`abs(v) - timestamp` where the docstring ("taken nearest to ``timestamp``")
and the spec require `abs(v - timestamp)`, so `min` picks the entry with the
smallest timestamp instead of the nearest one. -/
theorem c1_nearest_lookup_bug :
    gamma_nearest_laserbg_key
      [("laser_background/a.tif", 10), ("laser_background/b.tif", 100)]
      100 = .ok "laser_background/a.tif" ∧
    delta_nearest_laserbg_key
      [("/d/laser_background/a.tif", 10), ("/d/laser_background/b.tif", 100)]
      100 = .ok "/d/laser_background/a.tif" ∧
    |(100 : ℚ) - 100| < |(10 : ℚ) - 100| :=
  ⟨by decide, by decide, by norm_num⟩

/-- C9.  When no entry of the timestamp table matches the relevant category
(no key whose parent directory is `laser_background` / `pump_off` /
`dark_image` for Gamma, none containing that substring for Delta), every
`nearest_*` method raises `ValueError` (`min()` of an empty collection)
instead of returning an image. -/
theorem c9_nearest_empty_category (fs : FS) (st : CsvGenState) (q : ℚ) :
    (st.timestamps.filter (fun kv => parentOf kv.1 == "laser_background") = [] →
      gamma_nearest_laserbg fs st q = .error .valueError) ∧
    (st.timestamps.filter (fun kv => parentOf kv.1 == "pump_off") = [] →
      gamma_nearest_pumpoff fs st q = .error .valueError) ∧
    (st.timestamps.filter (fun kv => parentOf kv.1 == "dark_image") = [] →
      gamma_nearest_dark fs st q = .error .valueError) ∧
    (st.timestamps.filter (fun kv => strContains kv.1 "laser_background") = [] →
      delta_nearest_laserbg fs st q = .error .valueError) ∧
    (st.timestamps.filter (fun kv => strContains kv.1 "pump_off") = [] →
      delta_nearest_pumpoff fs st q = .error .valueError) ∧
    (st.timestamps.filter (fun kv => strContains kv.1 "dark_image") = [] →
      delta_nearest_dark fs st q = .error .valueError) := by
  refine ⟨fun h => ?_, fun h => ?_, fun h => ?_, fun h => ?_, fun h => ?_,
    fun h => ?_⟩
  · unfold gamma_nearest_laserbg gamma_nearest_laserbg_key
    rw [nearestKeyBy_empty _ _ _ h]
    rfl
  · unfold gamma_nearest_pumpoff gamma_nearest_pumpoff_key
    rw [nearestKeyBy_empty _ _ _ h]
    rfl
  · unfold gamma_nearest_dark gamma_nearest_dark_key
    rw [nearestKeyBy_empty _ _ _ h]
    rfl
  · unfold delta_nearest_laserbg delta_nearest_laserbg_key
    rw [nearestKeyBy_empty _ _ _ h]
    rfl
  · unfold delta_nearest_pumpoff delta_nearest_pumpoff_key
    rw [nearestKeyBy_empty _ _ _ h]
    rfl
  · unfold delta_nearest_dark delta_nearest_dark_key
    rw [nearestKeyBy_empty _ _ _ h]
    rfl

/-- C9 (witness): the theorem applied to a concrete state whose single
timestamp entry matches none of the three categories. -/
theorem c9_nearest_empty_category_witness :
    gamma_nearest_laserbg fsEmpty stSample 0 = .error .valueError ∧
    gamma_nearest_pumpoff fsEmpty stSample 0 = .error .valueError ∧
    gamma_nearest_dark fsEmpty stSample 0 = .error .valueError ∧
    delta_nearest_laserbg fsEmpty stSample 0 = .error .valueError ∧
    delta_nearest_pumpoff fsEmpty stSample 0 = .error .valueError ∧
    delta_nearest_dark fsEmpty stSample 0 = .error .valueError := by
  obtain ⟨h1, h2, h3, h4, h5, h6⟩ := c9_nearest_empty_category fsEmpty stSample 0
  exact ⟨h1 (by decide), h2 (by decide), h3 (by decide), h4 (by decide),
    h5 (by decide), h6 (by decide)⟩

@[simp]
theorem errorBind {α β : Type} (e : PyError) (f : α → Except PyError β) :
    (Except.error e : Except PyError α) >>= f = .error e := rfl

/-- C5.  An in-bounds request whose expected image file is missing makes
`raw_data` raise `IOError` (Beta: empty glob, caught `StopIteration`;
Gamma/Delta: explicit existence check; Alpha: `diffread` of the missing
file), while an out-of-bounds request is rejected with `ValueError` by the
external `check_raw_bounds` wrapper before the body runs — two distinct
failures. -/
theorem c5_missing_file_vs_bounds (fs : FS) (stA : AlphaState)
    (stB : BetaState) (stG stD : CsvGenState) (t : ℤ) (scan : ℕ) (bgr : Bool) :
    (mkRatLite t 100 ∈ stA.timePoints ∧ scan ∈ stA.scans →
      fs.readImage (pyJoin stA.source (alpha_raw_fname t scan)) = none →
      alpha_raw_data_checked fs stA t scan bgr = .error .ioError) ∧
    (mkRatLite t 1000 ∈ stB.meta.timePoints ∧ scan ∈ stB.meta.scans →
      fs.glob (beta_glob_pattern stB.source t scan) = [] →
      beta_raw_data_checked fs stB t scan = .error .ioError) ∧
    (mkRatLite t 1000 ∈ stG.timePoints ∧ scan ∈ stG.scans →
      fs.fileExists (gammaFnameAbs stG t scan) = false →
      gamma_raw_data_checked fs stG t scan bgr = .error .ioError) ∧
    (mkRatLite t 1000 ∈ stD.timePoints ∧ scan ∈ stD.scans →
      fs.fileExists (delta_fname stD.source t scan) = false →
      delta_raw_data_checked fs stD t scan bgr = .error .ioError) ∧
    (¬ (mkRatLite t 1000 ∈ stB.meta.timePoints ∧ scan ∈ stB.meta.scans) →
      beta_raw_data_checked fs stB t scan = .error .valueError) ∧
    (¬ (mkRatLite t 1000 ∈ stG.timePoints ∧ scan ∈ stG.scans) →
      gamma_raw_data_checked fs stG t scan bgr = .error .valueError) ∧
    (¬ (mkRatLite t 1000 ∈ stD.timePoints ∧ scan ∈ stD.scans) →
      delta_raw_data_checked fs stD t scan bgr = .error .valueError) ∧
    PyError.ioError ≠ PyError.valueError := by
  refine ⟨fun hb hm => ?_, fun hb hm => ?_, fun hb hm => ?_, fun hb hm => ?_,
    fun hb => ?_, fun hb => ?_, fun hb => ?_, by decide⟩
  · simp [alpha_raw_data_checked, check_raw_bounds, hb, alpha_raw_data, hm,
      liftOpt]
  · simp [beta_raw_data_checked, check_raw_bounds, hb, beta_raw_data, hm]
  · simp [gamma_raw_data_checked, check_raw_bounds, hb, gamma_raw_data, hm]
  · simp [delta_raw_data_checked, check_raw_bounds, hb, delta_raw_data, hm]
  · simp [beta_raw_data_checked, check_raw_bounds, hb]
  · simp [gamma_raw_data_checked, check_raw_bounds, hb]
  · simp [delta_raw_data_checked, check_raw_bounds, hb]

/-- C5 (witness): in-bounds requests on the empty filesystem (every file
missing) raise `IOError`; an out-of-bounds time-delay raises `ValueError`. -/
theorem c5_missing_file_vs_bounds_witness :
    alpha_raw_data_checked fsEmpty stASample (-50) 1 true = .error .ioError ∧
    beta_raw_data_checked fsEmpty stBSample 0 1 = .error .ioError ∧
    gamma_raw_data_checked fsEmpty stSample 0 1 true = .error .ioError ∧
    delta_raw_data_checked fsEmpty stSample 0 1 true = .error .ioError ∧
    beta_raw_data_checked fsEmpty stBSample 5000 1 = .error .valueError ∧
    gamma_raw_data_checked fsEmpty stSample 5000 1 true = .error .valueError ∧
    delta_raw_data_checked fsEmpty stSample 5000 1 true = .error .valueError := by
  obtain ⟨h1, h2, h3, h4, h5, h6, h7, _⟩ :=
    c5_missing_file_vs_bounds fsEmpty stASample stBSample stSample stSample
      0 1 true
  obtain ⟨g1, -, -, -, -, -, -, -⟩ :=
    c5_missing_file_vs_bounds fsEmpty stASample stBSample stSample stSample
      (-50) 1 true
  obtain ⟨-, -, -, -, k5, k6, k7, -⟩ :=
    c5_missing_file_vs_bounds fsEmpty stASample stBSample stSample stSample
      5000 1 true
  exact ⟨g1 (by decide) rfl, h2 (by decide) rfl, h3 (by decide) rfl,
    h4 (by decide) rfl, k5 (by decide), k6 (by decide), k7 (by decide)⟩

theorem imClampNeg_nonneg (l : Image) : ∀ x ∈ imClampNeg l, 0 ≤ x := by
  intro x hx
  unfold imClampNeg at hx
  obtain ⟨y, -, hy⟩ := List.mem_map.mp hx
  rw [← hy]
  by_cases h : y < 0
  · simp [h]
  · simp [h]
    exact le_of_not_lt h

/-- C6.  With background removal requested, Alpha clamps negative
intensities to zero (`im[im < 0] = 0`), so every entry of a successful
result is non-negative; Gamma and Delta subtract the nearest laser
background without clamping, and on a concrete frame of intensity 3 with a
background of intensity 8 both return the negative intensity `-5`. -/
theorem c6_background_clamping :
    (∀ (fs : FS) (st : AlphaState) (t : ℤ) (scan : ℕ) (im : Image),
        alpha_raw_data fs st t scan true = .ok im → ∀ x ∈ im, 0 ≤ x) ∧
    gamma_raw_data fsNeg stGNeg 0 1 true = .ok [mkRatLite (-5) 1] ∧
    delta_raw_data fsNeg stDNeg 0 1 true = .ok [mkRatLite (-5) 1] ∧
    mkRatLite (-5) 1 < 0 := by
  refine ⟨?_, by decide, by decide, by decide⟩
  intro fs st t scan im h
  unfold alpha_raw_data at h
  obtain ⟨im0, h1, h2⟩ := bindE_ok h
  obtain ⟨bg, h3, h4⟩ := bindE_ok h2
  injection h4 with h5
  rw [← h5]
  exact imClampNeg_nonneg _

/-- C6 (witness): on a frame dimmer than its background, Alpha's clamped
result is `[0]`, and the theorem yields its non-negativity. -/
theorem c6_background_clamping_witness :
    alpha_raw_data fsC6a stASample 0 1 true = .ok [0] ∧ (0 : ℚ) ≤ 0 := by
  have h : alpha_raw_data fsC6a stASample 0 1 true = .ok [0] := by decide
  exact ⟨h, c6_background_clamping.1 fsC6a stASample 0 1 [0] h 0 (by decide)⟩

theorem alphaTimePoints_sorted {files : List String} {tps : List ℚ}
    (h : alphaTimePoints files = .ok tps) : List.Sorted (· ≤ ·) tps := by
  unfold alphaTimePoints at h
  obtain ⟨strs, -, h2⟩ := bindE_ok h
  injection h2 with h3
  rw [← h3]
  exact List.Pairwise.map keyRat (fun a b hab => hab)
    (List.sorted_insertionSort timeKeyLe strs.eraseDups)

theorem gammaPumpoffTimePoints_sorted (timestamps : List (String × ℚ)) :
    List.Sorted (· ≤ ·) (gammaPumpoffTimePoints timestamps) :=
  List.sorted_insertionSort _ _

/-- C7 (amended).  The time-points assembled by the Alpha constructor and by
the Gamma pump-off constructor are sorted in ascending order (non-strictly);
uniqueness is *not* guaranteed — see the counterexample. -/
theorem c7_time_points_sorted :
    (∀ (fs : FS) (source : String) (st : AlphaState),
        alphaInit fs source = .ok st → List.Sorted (· ≤ ·) st.timePoints) ∧
    (∀ (fs : FS) (source : String) (st : CsvGenState),
        gammaPumpoffInit fs source = .ok st →
          List.Sorted (· ≤ ·) st.timePoints) := by
  constructor
  · intro fs source st h
    unfold alphaInit at h
    by_cases hd : fs.isDir source = false
    · rw [if_pos hd] at h
      exact absurd h (by simp)
    · rw [if_neg hd] at h
      obtain ⟨lines, -, h2⟩ := bindE_ok h
      obtain ⟨md, -, h3⟩ := bindE_ok h2
      obtain ⟨scans, -, h4⟩ := bindE_ok h3
      obtain ⟨tps, htps, h5⟩ := bindE_ok h4
      injection h5 with h6
      rw [← h6]
      exact alphaTimePoints_sorted htps
  · intro fs source st h
    unfold gammaPumpoffInit at h
    cases hg : gammaInit fs source with
    | error e =>
      rw [hg] at h
      exact absurd h (by simp)
    | ok st0 =>
      rw [hg] at h
      injection h with h2
      rw [← h2]
      exact gammaPumpoffTimePoints_sorted st0.timestamps

/-- C7 (counterexample).  The Gamma pump-off adapter constructed on `/d`
succeeds, and its `time_points` is `[100, 100]` — sorted, but with a
duplicate value, because two distinct pump-off files share a timestamp and
the constructor sorts the timestamp values without de-duplicating them.  So
the claim that every successfully constructed adapter has *unique*
time-points is false. -/
theorem c7_time_points_counterexample :
    exceptOk (gammaPumpoffInit fsCsv "/d") = true ∧
    timePointsOfC (gammaPumpoffInit fsCsv "/d") = [100, 100] ∧
    ¬ (timePointsOfC (gammaPumpoffInit fsCsv "/d")).Nodup :=
  ⟨by decide, by decide, by decide⟩

/-- C7 (witness): the amended theorem applied to a concrete successful Alpha
construction and to the concrete Gamma pump-off construction of the
counterexample, whose time-points `[-0.5, 1.5]` and `[100, 100]` are indeed
sorted. -/
theorem c7_time_points_sorted_witness :
    alphaInit fsA "/a" = .ok stASample ∧
    List.Sorted (· ≤ ·) stASample.timePoints ∧
    gammaPumpoffInit fsCsv "/d" =
      .ok (csvStateOf (gammaPumpoffInit fsCsv "/d")) ∧
    List.Sorted (· ≤ ·) (timePointsOfC (gammaPumpoffInit fsCsv "/d")) := by
  have hA : alphaInit fsA "/a" = .ok stASample := by decide
  have hG : gammaPumpoffInit fsCsv "/d" =
      .ok (csvStateOf (gammaPumpoffInit fsCsv "/d")) := by decide
  exact ⟨hA, c7_time_points_sorted.1 fsA "/a" stASample hA, hG,
    c7_time_points_sorted.2 fsCsv "/d" _ hG⟩

/-- C8 (counterexample).  On a concrete input whose expected image file
exists, Delta's `electron_count` raises `AttributeError` at the existence
check itself (`fname.exists()` on a plain string), so it never evaluates the
undefined name `img_fname`: the claimed failure mechanism — a raise at
`img_fname` after a successful existence check — is wrong for Delta. -/
theorem c8_electron_count_counterexample :
    delta_electron_count fsNeg stDNeg 0 1 = .error .attributeError ∧
    fsNeg.fileExists (delta_fname stDNeg.source 0 1) = true ∧
    (Except.error PyError.attributeError : Except PyError ℚ) ≠
      .error .nameError :=
  ⟨rfl, by decide, by decide⟩

/-- C8 (amended).  Neither `electron_count` ever returns an electron count:
Gamma's raises `IOError` when the file is missing and otherwise `NameError`
at the undefined `img_fname`; Delta's always raises `AttributeError` at the
`fname.exists()` call on a plain string, before any of that. -/
theorem c8_electron_count_never_returns :
    (∀ (fs : FS) (st : CsvGenState) (t : ℤ) (scan : ℕ),
        fs.fileExists (gammaFnameAbs st t scan) = true →
          gamma_electron_count fs st t scan = .error .nameError) ∧
    (∀ (fs : FS) (st : CsvGenState) (t : ℤ) (scan : ℕ) (e : ℚ),
        gamma_electron_count fs st t scan ≠ .ok e) ∧
    (∀ (fs : FS) (st : CsvGenState) (t : ℤ) (scan : ℕ),
        delta_electron_count fs st t scan = .error .attributeError) ∧
    (∀ (fs : FS) (st : CsvGenState) (t : ℤ) (scan : ℕ) (e : ℚ),
        delta_electron_count fs st t scan ≠ .ok e) := by
  refine ⟨fun fs st t scan h => ?_, fun fs st t scan e => ?_,
    fun fs st t scan => rfl, fun fs st t scan e => by
      rw [show delta_electron_count fs st t scan = .error .attributeError
        from rfl]
      simp⟩
  · simp [gamma_electron_count, h, undefined_img_fname]
  · cases hx : fs.fileExists (gammaFnameAbs st t scan) <;>
      simp [gamma_electron_count, hx, undefined_img_fname]

/-- C8 (witness): on a concrete input whose file exists, Gamma's
`electron_count` raises `NameError`, by the theorem. -/
theorem c8_electron_count_never_returns_witness :
    fsNeg.fileExists (gammaFnameAbs stGNeg 0 1) = true ∧
    gamma_electron_count fsNeg stGNeg 0 1 = .error .nameError := by
  have h : fsNeg.fileExists (gammaFnameAbs stGNeg 0 1) = true := by decide
  exact ⟨h, c8_electron_count_never_returns.1 fsNeg stGNeg 0 1 h⟩

theorem deltaPumpoffInit_ok_case {fs : FS} {source : String}
    {st : CsvGenState} (h : deltaInit fs source = .ok st) :
    deltaPumpoffInit fs source =
      deltaPumpoffKeys st.timestamps >>= fun fnames =>
        .ok { st with
              scans := [1]
              timePoints := ((fnames.map
                (fun k => (dictGet st.timestamps k).getD 0)).insertionSort
                (· ≤ ·)) } := by
  unfold deltaPumpoffInit
  rw [h]

theorem csvRowsGo_ok_ne_nil (keyFn : String → String) :
    ∀ (l : List (List String)) (d0 res : List (String × ℚ)),
      csvRowsGo keyFn l d0 = .ok res → (l ≠ [] ∨ d0 ≠ []) → res ≠ [] := by
  intro l
  induction l with
  | nil =>
    intro d0 res h hor
    simp only [csvRowsGo] at h
    injection h with h1
    rcases hor with h2 | h2
    · exact absurd rfl h2
    · rw [← h1]
      exact h2
  | cons row rest ih =>
    intro d0 res h hor
    cases row with
    | nil => simp [csvRowsGo] at h
    | cons r0 rtl =>
      cases rtl with
      | nil => simp [csvRowsGo] at h
      | cons r1 rtl2 =>
        simp only [csvRowsGo] at h
        cases hq : pyFloat? r1 with
        | none => rw [hq] at h; simp at h
        | some q =>
          rw [hq] at h
          exact ih _ res h (Or.inr (insertOrReplace_ne_nil _ _))

/-- C10.  Whenever the Delta constructor succeeds with a non-empty timestamp
table — which is the case exactly when `timestamps.csv` has at least one
data row, by the third conjunct — constructing the pump-off diagnostic
subclass raises `AttributeError` (`k.parent` on a plain-string key);
construction succeeds only when the table is empty. -/
theorem c10_delta_pumpoff_attribute_error (fs : FS) (source : String)
    (st : CsvGenState) (h : deltaInit fs source = .ok st) :
    (st.timestamps ≠ [] →
      deltaPumpoffInit fs source = .error .attributeError) ∧
    (st.timestamps = [] →
      deltaPumpoffInit fs source =
        .ok { st with scans := [1], timePoints := [] }) ∧
    (∀ (sname : String) (rows : List (List String)) (d : List (String × ℚ)),
        csv_to_kvstore_delta sname rows = .ok d → rows.drop 1 ≠ [] →
          d ≠ []) := by
  refine ⟨fun hne => ?_, fun hemp => ?_,
    fun sname rows d hok hrows =>
      csvRowsGo_ok_ne_nil _ (rows.drop 1) [] d hok (Or.inl hrows)⟩
  · rw [deltaPumpoffInit_ok_case h]
    cases hts : st.timestamps with
    | nil => exact absurd hts hne
    | cons kv rest =>
      obtain ⟨k, v⟩ := kv
      rfl
  · rw [deltaPumpoffInit_ok_case h, hemp]
    rfl

/-- C10 (witness): on the concrete directory `/d` (whose `timestamps.csv`
has three data rows) the Delta constructor succeeds with a non-empty table
and the pump-off constructor raises `AttributeError`. -/
theorem c10_delta_pumpoff_attribute_error_witness :
    deltaInit fsCsv "/d" = .ok (csvStateOf (deltaInit fsCsv "/d")) ∧
    (csvStateOf (deltaInit fsCsv "/d")).timestamps ≠ [] ∧
    deltaPumpoffInit fsCsv "/d" = .error .attributeError := by
  have h : deltaInit fsCsv "/d" = .ok (csvStateOf (deltaInit fsCsv "/d")) := by
    decide
  exact ⟨h, by decide,
    (c10_delta_pumpoff_attribute_error fsCsv "/d" _ h).1 (by decide)⟩

